import Mathlib

/-!
Verification of the image-compressor client component and its compression
endpoint.  The estimator, the batch orchestration loop, record removal and
the aggregate statistics from `src/components/ImageCompressor.tsx`, and the
format / ratio computation from `src/app/api/compress/route.ts`, are embedded
as executable Lean definitions.  JavaScript number arithmetic is modelled in
exact rational arithmetic, with `Math.round x` as the floor of `x + 1/2`.
-/

/-- Per-record status: `pending | compressing | done | error`. -/
inductive Status where
  | pending
  | compressing
  | done
  | error
deriving DecidableEq

/-- The `compressed` payload attached to a record on success
(`size, width, height, format, base64`). -/
structure CompressedInfo where
  size : Nat
  width : Nat
  height : Nat
  format : String
  base64 : String
deriving DecidableEq

/-- The `original` metadata attached on success
(`name, size, width, height, format`). -/
structure OriginalInfo where
  name : String
  size : Nat
  width : Nat
  height : Nat
  format : String
deriving DecidableEq

/-- One `ImageFile` record of the client component.  The opaque browser
`File` object is omitted; `preview` is the object-URL handle string. -/
structure ImageFile where
  id : String
  preview : String
  status : Status
  originalSize : Nat
  estimatedSize : Option Int
  original : Option OriginalInfo
  compressed : Option CompressedInfo
  compressionRatio : Option ℚ
  error : Option String
deriving DecidableEq

/-- JavaScript `Math.round`: round half toward positive infinity. -/
def jsRound (x : ℚ) : Int := ⌊x + 1/2⌋

/-- The `QUALITY_FACTORS` record: `high ↦ 0.7`, `medium ↦ 0.45`,
`low ↦ 0.25`; any other key is absent. -/
def QUALITY_FACTORS (preset : String) : Option ℚ :=
  if preset = "high" then some (7/10)
  else if preset = "medium" then some (45/100)
  else if preset = "low" then some (25/100)
  else none

/-- The estimator `estimateSize(originalSize, preset, customQuality?)`: when
`preset === 'custom' && customQuality` (JS truthiness: present and nonzero)
the factor is `0.1 + (customQuality / 100) * 0.6`; otherwise the factor is
`QUALITY_FACTORS[preset] || 0.45`. -/
def estimateSize (originalSize : Nat) (preset : String) (customQuality : Option Nat) : Int :=
  match customQuality with
  | some q =>
      if preset = "custom" ∧ q ≠ 0 then
        jsRound ((originalSize : ℚ) * (1/10 + ((q : ℚ) / 100) * (6/10)))
      else
        jsRound ((originalSize : ℚ) * ((QUALITY_FACTORS preset).getD (45/100)))
  | none =>
      jsRound ((originalSize : ℚ) * ((QUALITY_FACTORS preset).getD (45/100)))

/-- The estimate-recomputation effect: on every change of `qualityPreset` or
`quality`, when the list is nonempty, map over ALL images replacing
`estimatedSize` with a fresh estimate. -/
def recomputeEstimates (preset : String) (quality : Nat) (imgs : List ImageFile) : List ImageFile :=
  if 0 < imgs.length then
    imgs.map (fun img =>
      { img with estimatedSize := some (estimateSize img.originalSize preset (some quality)) })
  else imgs

/-- The compression endpoint's output-format choice: `original` resolves to
the detected source encoding, then the switch normalizes `jpeg`/`jpg` to
`jpeg`, passes `png`, `webp`, `avif` through, and sends every other value to
the default branch producing `jpeg`. -/
def resolveFormat (format originalFormat : String) : String :=
  let f := if format = "original" then originalFormat else format
  if f = "jpeg" ∨ f = "jpg" then "jpeg"
  else if f = "png" then "png"
  else if f = "webp" then "webp"
  else if f = "avif" then "avif"
  else "jpeg"

/-- JavaScript `x.toFixed(2)` then `parseFloat`: round to two decimal places. -/
def roundTo2 (x : ℚ) : ℚ := (jsRound (x * 100) : ℚ) / 100

/-- The endpoint ratio `((1 - compressedSize / originalSize) * 100).toFixed(2)` then
`parseFloat`, as computed by the endpoint. -/
def serverRatio (originalSize compressedSize : Nat) : ℚ :=
  roundTo2 ((1 - (compressedSize : ℚ) / (originalSize : ℚ)) * 100)

/-- The JSON body of a successful endpoint response. -/
structure CompressResult where
  original : OriginalInfo
  compressed : CompressedInfo
  compressionRatio : ℚ
deriving DecidableEq

/-- The endpoint's success response, with the codec outputs (compressed
byte size, dimensions, payload) abstracted as parameters: the output format
comes from `resolveFormat`, the ratio from `serverRatio`, and the payload is
wrapped in a `data:image/...;base64,` URL. -/
def serverRespond (name : String) (originalSize origWidth origHeight : Nat)
    (originalFormat requestFormat : String)
    (compressedSize compWidth compHeight : Nat) (base64 : String) : CompressResult :=
  let outputFormat := resolveFormat requestFormat originalFormat
  { original := ⟨name, originalSize, origWidth, origHeight, originalFormat⟩
    compressed := ⟨compressedSize, compWidth, compHeight, outputFormat,
      "data:image/" ++ outputFormat ++ ";base64," ++ base64⟩
    compressionRatio := serverRatio originalSize compressedSize }

/-- Client `compressImage(image)`: one remote call, abstracted by `oracle` (the
network plus endpoint).  On a success response attach `original`,
`compressed` and `compressionRatio` and move to `done`; on any failure
(non-ok response or thrown exception) move to `error` with the message. -/
def compressImage (oracle : ImageFile → Except String CompressResult)
    (image : ImageFile) : ImageFile :=
  match oracle image with
  | .ok result =>
      { image with status := .done, original := some result.original,
                   compressed := some result.compressed,
                   compressionRatio := some result.compressionRatio }
  | .error e => { image with status := .error, error := some e }

/-- The `setImages` call at the start of `handleCompress`: every `pending`
record is marked `compressing`; all other records are untouched. -/
def markCompressing (imgs : List ImageFile) : List ImageFile :=
  imgs.map (fun img =>
    if img.status = .pending then { img with status := .compressing } else img)

/-- The snapshot filter `images.filter(img => img.status === 'pending' || img.status === 'compressing')`,
evaluated on the batch-start snapshot of the list. -/
def eligibleOf (imgs : List ImageFile) : List ImageFile :=
  imgs.filter (fun img => decide (img.status = .pending ∨ img.status = .compressing))

/-- The per-iteration `setImages`: replace the slot whose id matches the
freshly compressed record. -/
def replaceById (imgs : List ImageFile) (c : ImageFile) : List ImageFile :=
  imgs.map (fun img => if img.id = c.id then c else img)

/-- One remote call is an interval delimited by these two events. -/
inductive TraceEvent where
  | callStart (id : String)
  | callEnd (id : String)
deriving DecidableEq

/-- The `for ... of` loop of `handleCompress`: await one compression at a
time, in list order, replacing the finished record's slot after each call.
Returns the final list together with the sequence of call events. -/
def runBatch (oracle : ImageFile → Except String CompressResult) :
    List ImageFile → List ImageFile → List ImageFile × List TraceEvent
  | st, [] => (st, [])
  | st, img :: rest =>
      let out := runBatch oracle (replaceById st (compressImage oracle img)) rest
      (out.1, .callStart img.id :: .callEnd img.id :: out.2)

/-- Client `handleCompress`: no-op on an empty list; otherwise mark the pending
records `compressing` and run the sequential batch over the records that
were `pending` or `compressing` in the batch-start snapshot. -/
def handleCompress (oracle : ImageFile → Except String CompressResult)
    (imgs : List ImageFile) : List ImageFile × List TraceEvent :=
  if imgs.length = 0 then (imgs, [])
  else runBatch oracle (markCompressing imgs) (eligibleOf imgs)

/-- Net number of calls open after a sequence of events: starts minus ends. -/
def inFlight : List TraceEvent → Int
  | [] => 0
  | .callStart _ :: t => 1 + inFlight t
  | .callEnd _ :: t => inFlight t - 1

/-- The ids of the calls begun, in order. -/
def startedIds : List TraceEvent → List String
  | [] => []
  | .callStart i :: t => i :: startedIds t
  | .callEnd _ :: t => startedIds t

/-- Client `removeImage(id)`: filter the record out of the list.  The second
component records the preview handles revoked during the operation: the
source performs no revocation here. -/
def removeImage (id : String) (imgs : List ImageFile) : List ImageFile × List String :=
  (imgs.filter (fun img => decide (img.id ≠ id)), [])

/-- Client `clearAll()`: revoke every record's preview object-URL, then empty the
list.  Second component as in `removeImage`. -/
def clearAll (imgs : List ImageFile) : List ImageFile × List String :=
  ([], imgs.map (fun img => img.preview))

/-- Derived `completedCount`: number of `done` records. -/
def completedCount (imgs : List ImageFile) : Nat :=
  (imgs.filter (fun img => decide (img.status = .done))).length

/-- Derived `totalEstimatedSize`: `reduce((acc, img) => acc + (img.estimatedSize || 0), 0)`
over ALL records, whatever their status. -/
def totalEstimatedSize (imgs : List ImageFile) : Int :=
  imgs.foldl (fun acc img => acc + img.estimatedSize.getD 0) 0

/-- Modelled from the spec's words, for comparison with `totalEstimatedSize`:
the sum over non-`done` records of `estimatedBytes` plus the sum over `done`
records of the true measured compressed size. -/
def specTotalEstimated (imgs : List ImageFile) : Int :=
  ((imgs.filter (fun img => decide (img.status ≠ .done))).map
      (fun img => img.estimatedSize.getD 0)).sum
  + ((imgs.filter (fun img => decide (img.status = .done))).map
      (fun img => ((img.compressed.map (fun c => c.size)).getD 0 : Int))).sum

/-- Rounding is monotone. -/
theorem jsRound_le_jsRound {a b : ℚ} (h : a ≤ b) : jsRound a ≤ jsRound b :=
  Int.floor_le_floor (by linarith)

/-- C1: for every non-negative `sourceBytes` the estimator returns
`round(sourceBytes * 0.70)` for `high`, `round(sourceBytes * 0.45)` for
`medium`, `round(sourceBytes * 0.25)` for `low`, and for `custom` with a
quality value in `10..100` returns
`round(sourceBytes * (0.1 + (q / 100) * 0.6))`; in particular
`estimate(1000000, medium) = 450000` and
`estimate(1000000, custom, 55) = 430000`. -/
theorem estimateSize_presets (s : Nat) (q : Option Nat) (qc : Nat)
    (h10 : 10 ≤ qc) (h100 : qc ≤ 100) :
    estimateSize s "high" q = jsRound ((s : ℚ) * (70/100)) ∧
    estimateSize s "medium" q = jsRound ((s : ℚ) * (45/100)) ∧
    estimateSize s "low" q = jsRound ((s : ℚ) * (25/100)) ∧
    estimateSize s "custom" (some qc)
      = jsRound ((s : ℚ) * (1/10 + ((qc : ℚ) / 100) * (6/10))) ∧
    estimateSize 1000000 "medium" (some 70) = 450000 ∧
    estimateSize 1000000 "custom" (some 55) = 430000 := by
  have hqc : qc ≠ 0 := by omega
  refine ⟨?_, ?_, ?_, ?_, ?_, ?_⟩
  · cases q <;> · simp +decide only [estimateSize, QUALITY_FACTORS, Option.getD_some]
                  norm_num
  · cases q <;> · simp +decide only [estimateSize, QUALITY_FACTORS, Option.getD_some]
                  norm_num
  · cases q <;> · simp +decide only [estimateSize, QUALITY_FACTORS, Option.getD_some]
                  norm_num
  · simp [estimateSize, hqc]
  · simp +decide only [estimateSize, jsRound, QUALITY_FACTORS]; norm_num
  · simp +decide only [estimateSize, jsRound, QUALITY_FACTORS]; norm_num

/-- C1 witness at `sourceBytes = 1000000`, `q = 55`. -/
theorem estimateSize_presets_witness :
    (10 ≤ 55 ∧ 55 ≤ 100) ∧
    estimateSize 1000000 "medium" (some 70) = 450000 ∧
    estimateSize 1000000 "custom" (some 55) = 430000 := by
  have h := estimateSize_presets 1000000 (some 70) 55 (by norm_num) (by norm_num)
  exact ⟨⟨by norm_num, by norm_num⟩, h.2.2.2.2.1, h.2.2.2.2.2⟩

/-- C6: for preset `custom` the estimate is monotonically non-decreasing in
the quality value over `[10, 100]`, with value `round(0.16 * x)` at quality
10 and `round(0.70 * x)` at quality 100. -/
theorem estimateSize_custom_monotone (x q₁ q₂ : Nat)
    (h1 : 10 ≤ q₁) (h2 : q₁ ≤ q₂) (h3 : q₂ ≤ 100) :
    estimateSize x "custom" (some q₁) ≤ estimateSize x "custom" (some q₂) ∧
    estimateSize x "custom" (some 10) = jsRound ((x : ℚ) * (16/100)) ∧
    estimateSize x "custom" (some 100) = jsRound ((x : ℚ) * (70/100)) := by
  have hq1 : q₁ ≠ 0 := by omega
  have hq2 : q₂ ≠ 0 := by omega
  refine ⟨?_, ?_, ?_⟩
  · simp only [estimateSize, true_and, ne_eq, hq1, hq2, not_false_eq_true, if_true]
    apply jsRound_le_jsRound
    have hc : ((q₁ : ℚ)) ≤ (q₂ : ℚ) := by exact_mod_cast h2
    have hx : (0 : ℚ) ≤ (x : ℚ) := by positivity
    have hfac : (1 : ℚ)/10 + (q₁ : ℚ)/100 * (6/10) ≤ 1/10 + (q₂ : ℚ)/100 * (6/10) := by
      linarith
    exact mul_le_mul_of_nonneg_left hfac hx
  · simp [estimateSize]
    apply congrArg jsRound
    norm_num
  · simp [estimateSize]
    apply congrArg jsRound
    norm_num

/-- C6 witness at `x = 1000`, `q₁ = 10`, `q₂ = 100`. -/
theorem estimateSize_custom_monotone_witness :
    (10 ≤ 10 ∧ 10 ≤ 100 ∧ 100 ≤ 100) ∧
    estimateSize 1000 "custom" (some 10) ≤ estimateSize 1000 "custom" (some 100) ∧
    estimateSize 1000 "custom" (some 10) = jsRound ((1000 : ℚ) * (16/100)) := by
  have h := estimateSize_custom_monotone 1000 10 100 (by norm_num) (by norm_num) (by norm_num)
  exact ⟨⟨by norm_num, by norm_num, by norm_num⟩, h.1, h.2.1⟩

/-- C10: with a preset outside `high`/`medium`/`low` whose custom branch is
not taken — including `custom` with the quality argument absent or 0 — the
estimator falls back to `round(sourceBytes * 0.45)`. -/
theorem estimateSize_fallback (s : Nat) (preset : String) (q : Option Nat)
    (h1 : preset ≠ "high") (h2 : preset ≠ "medium") (h3 : preset ≠ "low")
    (h4 : preset = "custom" → q = none ∨ q = some 0) :
    estimateSize s preset q = jsRound ((s : ℚ) * (45/100)) := by
  cases q with
  | none =>
      simp only [estimateSize, QUALITY_FACTORS, if_neg h1, if_neg h2, if_neg h3,
        Option.getD_none]
  | some qv =>
      by_cases hp : preset = "custom"
      · rcases h4 hp with h | h
        · exact absurd h (by simp)
        · have hqv : qv = 0 := by injection h
          subst hqv
          simp only [estimateSize, ne_eq, not_true_eq_false, and_false, if_false,
            QUALITY_FACTORS, if_neg h1, if_neg h2, if_neg h3, Option.getD_none]
      · rw [estimateSize, if_neg (fun hc => hp hc.1)]
        simp only [QUALITY_FACTORS, if_neg h1, if_neg h2, if_neg h3, Option.getD_none]

/-- C10 witness: preset `custom` with quality 0 on a 200-byte source. -/
theorem estimateSize_fallback_witness :
    estimateSize 200 "custom" (some 0) = jsRound ((200 : ℚ) * (45/100)) :=
  estimateSize_fallback 200 "custom" (some 0) (by decide) (by decide) (by decide)
    (fun _ => Or.inr rfl)

/-- A record that has completed compression: measured size 50 from 1000
source bytes, while its last heuristic estimate was 100. -/
def doneRec : ImageFile :=
  { id := "d1", preview := "blob:d1", status := .done, originalSize := 1000,
    estimatedSize := some 100,
    original := some ⟨"a.png", 1000, 10, 10, "png"⟩,
    compressed := some ⟨50, 8, 8, "png", "data:image/png;base64,AA"⟩,
    compressionRatio := some 95, error := none }

/-- C2 counterexample: a quality change recomputes the estimate of a `done`
record too — its `estimatedBytes` does not stay unchanged. -/
theorem recompute_touches_done :
    doneRec.status = .done ∧ doneRec.estimatedSize = some 100 ∧
    (recomputeEstimates "low" 50 [doneRec]).map (fun img => img.estimatedSize)
      = [some 250] ∧
    some (250 : Int) ≠ some (100 : Int) := by
  refine ⟨rfl, rfl, ?_, by decide⟩
  simp only [recomputeEstimates, List.length_singleton, Nat.lt_irrefl,
    List.map_cons, List.map_nil, Nat.zero_lt_one, if_true]
  simp +decide only [estimateSize, jsRound, QUALITY_FACTORS, doneRec]
  norm_num

/-- C2 amended: a preset or quality change recomputes `estimatedBytes` for
EVERY record, `done` ones included; each record's other fields (status,
measured result, ratio, error) are unchanged. -/
theorem recomputeEstimates_all (p : String) (q : Nat) (imgs : List ImageFile)
    (i : Nat) (img : ImageFile) (h : imgs[i]? = some img) :
    (recomputeEstimates p q imgs)[i]? =
      some { img with estimatedSize := some (estimateSize img.originalSize p (some q)) } := by
  have hne : imgs.length ≠ 0 := by
    intro h0
    rw [List.length_eq_zero.mp h0] at h
    simp at h
  simp only [recomputeEstimates, if_pos (Nat.pos_of_ne_zero hne), List.getElem?_map, h,
    Option.map_some']

/-- C2 amended witness: the `done` record at index 0. -/
theorem recomputeEstimates_all_witness :
    ([doneRec][0]? = some doneRec) ∧
    (recomputeEstimates "high" 90 [doneRec])[0]? =
      some { doneRec with
              estimatedSize := some (estimateSize doneRec.originalSize "high" (some 90)) } :=
  ⟨rfl, recomputeEstimates_all "high" 90 [doneRec] 0 doneRec rfl⟩

/-- C3: `removeImage` deletes the record but performs zero preview-handle
revocations (the claim requires exactly one); `clearAll` on the same session
does revoke the handle, so the handle model itself is not degenerate. -/
theorem removeImage_releases_nothing :
    (removeImage "d1" [doneRec]).1 = [] ∧
    (removeImage "d1" [doneRec]).2.length = 0 ∧
    (clearAll [doneRec]).2 = ["blob:d1"] :=
  ⟨rfl, rfl, rfl⟩

/-- C7 counterexample: for a session with one `done` record whose estimate
is 100 and whose measured size is 50, the derived total is 100 — the sum of
estimates over all records — while the claimed non-done-estimates-plus-done-
true-sizes total would be 50. -/
theorem totalEstimated_blends :
    totalEstimatedSize [doneRec] = 100 ∧ specTotalEstimated [doneRec] = 50 ∧
    (100 : Int) ≠ 50 :=
  ⟨rfl, rfl, by decide⟩

/-- Folding the estimate sum from any accumulator. -/
theorem foldl_est (imgs : List ImageFile) (acc : Int) :
    imgs.foldl (fun a img => a + img.estimatedSize.getD 0) acc
      = acc + (imgs.map (fun img => img.estimatedSize.getD 0)).sum := by
  induction imgs generalizing acc with
  | nil => simp
  | cons a t ih => simp [List.foldl_cons, ih, add_assoc]

/-- C7 amended: the derived total-estimated-bytes statistic is the sum of
`estimatedBytes` over ALL records regardless of status — `done` records
contribute their (stale) estimate, never their measured size — so the total
is invariant under forgetting every status. -/
theorem totalEstimatedSize_sum_all (imgs : List ImageFile) :
    totalEstimatedSize imgs = (imgs.map (fun img => img.estimatedSize.getD 0)).sum ∧
    totalEstimatedSize (imgs.map fun img => { img with status := Status.pending })
      = totalEstimatedSize imgs := by
  constructor
  · simpa using foldl_est imgs 0
  · rw [totalEstimatedSize, totalEstimatedSize, foldl_est, foldl_est, List.map_map]
    rfl

/-- Unfolding `runBatch` on the empty worklist. -/
theorem runBatch_nil (oracle : ImageFile → Except String CompressResult)
    (st : List ImageFile) : runBatch oracle st [] = (st, []) := rfl

/-- Unfolding one iteration of `runBatch`. -/
theorem runBatch_cons (oracle : ImageFile → Except String CompressResult)
    (st : List ImageFile) (img : ImageFile) (rest : List ImageFile) :
    runBatch oracle st (img :: rest) =
      ((runBatch oracle (replaceById st (compressImage oracle img)) rest).1,
       .callStart img.id :: .callEnd img.id ::
         (runBatch oracle (replaceById st (compressImage oracle img)) rest).2) := rfl

/-- The calls are begun in exactly the worklist order. -/
theorem startedIds_runBatch (oracle : ImageFile → Except String CompressResult)
    (st : List ImageFile) (l : List ImageFile) :
    startedIds (runBatch oracle st l).2 = l.map (fun img => img.id) := by
  induction l generalizing st with
  | nil => rfl
  | cons img rest ih => simp [runBatch_cons, startedIds, ih]

/-- Every call begun during the batch has also ended by the end of it. -/
theorem inFlight_runBatch (oracle : ImageFile → Except String CompressResult)
    (st : List ImageFile) (l : List ImageFile) :
    inFlight (runBatch oracle st l).2 = 0 := by
  induction l generalizing st with
  | nil => rfl
  | cons img rest ih =>
      simp only [runBatch_cons, inFlight, ih]
      omega

/-- At every instant of the batch at most one call is open. -/
theorem inFlight_take_runBatch (oracle : ImageFile → Except String CompressResult)
    (st : List ImageFile) (l : List ImageFile) (n : Nat) :
    inFlight ((runBatch oracle st l).2.take n) ≤ 1 := by
  induction l generalizing st n with
  | nil => simp [runBatch_nil, inFlight]
  | cons img rest ih =>
      rcases n with _ | n
      · simp [inFlight]
      · rcases n with _ | n
        · simp [runBatch_cons, inFlight]
        · have h := ih (replaceById st (compressImage oracle img)) n
          simp only [runBatch_cons, List.take_succ_cons, inFlight]
          omega

/-- C5: the batch selects exactly the records that are `pending` or
`compressing` at batch start, marks them `compressing`, and issues the
compression calls strictly one at a time in array order: the begun calls are
the eligible ids in order, every prefix of the event trace has at most one
call open, and the full trace has none open. -/
theorem handleCompress_sequential (oracle : ImageFile → Except String CompressResult)
    (imgs : List ImageFile) :
    startedIds (handleCompress oracle imgs).2 = (eligibleOf imgs).map (fun img => img.id) ∧
    (∀ img, img ∈ eligibleOf imgs ↔
        img ∈ imgs ∧ (img.status = .pending ∨ img.status = .compressing)) ∧
    (∀ (i : Nat) (img : ImageFile), imgs[i]? = some img →
        img.status = .pending ∨ img.status = .compressing →
        ∃ img', (markCompressing imgs)[i]? = some img' ∧ img'.id = img.id ∧
          img'.status = .compressing) ∧
    (∀ n, inFlight ((handleCompress oracle imgs).2.take n) ≤ 1) ∧
    inFlight (handleCompress oracle imgs).2 = 0 := by
  have hmem : ∀ img, img ∈ eligibleOf imgs ↔
      img ∈ imgs ∧ (img.status = .pending ∨ img.status = .compressing) := by
    intro img
    simp [eligibleOf, List.mem_filter]
  have hmark : ∀ (i : Nat) (img : ImageFile), imgs[i]? = some img →
      img.status = .pending ∨ img.status = .compressing →
      ∃ img', (markCompressing imgs)[i]? = some img' ∧ img'.id = img.id ∧
        img'.status = .compressing := by
    intro i img h hst
    rcases hst with hst | hst
    · exact ⟨{ img with status := .compressing },
        by simp [markCompressing, List.getElem?_map, h, hst], rfl, rfl⟩
    · refine ⟨img, ?_, rfl, hst⟩
      simp [markCompressing, List.getElem?_map, h, hst]
  by_cases hemp : imgs.length = 0
  · have hnil : imgs = [] := List.length_eq_zero.mp hemp
    subst hnil
    refine ⟨by simp [handleCompress, startedIds, eligibleOf], hmem, hmark, ?_, by
      simp [handleCompress, inFlight]⟩
    intro n
    simp [handleCompress, inFlight]
  · simp only [handleCompress, if_neg hemp]
    exact ⟨startedIds_runBatch oracle (markCompressing imgs) (eligibleOf imgs), hmem, hmark,
      fun n => inFlight_take_runBatch oracle (markCompressing imgs) (eligibleOf imgs) n,
      inFlight_runBatch oracle (markCompressing imgs) (eligibleOf imgs)⟩

/-- C4: when the call for `a` fails with message `m` and the call for `b`
succeeds with result `r`, the batch `[a, b]` ends with `a` in `error`
carrying the message, `b` in `done` carrying exactly the response data with
all of its other fields untouched, one `done` record and one `error`
record. -/
theorem batch_isolates_failure (oracle : ImageFile → Except String CompressResult)
    (a b : ImageFile) (m : String) (r : CompressResult)
    (hab : a.id ≠ b.id) (ha : a.status = .pending) (hb : b.status = .pending)
    (hoa : oracle a = .error m) (hob : oracle b = .ok r) :
    (handleCompress oracle [a, b]).1 =
      [{ a with status := .error, error := some m },
       { b with status := .done, original := some r.original,
                compressed := some r.compressed,
                compressionRatio := some r.compressionRatio }] ∧
    completedCount (handleCompress oracle [a, b]).1 = 1 ∧
    ((handleCompress oracle [a, b]).1.filter
        (fun img => decide (img.status = .error))).length = 1 := by
  have hlist : (handleCompress oracle [a, b]).1 =
      [{ a with status := .error, error := some m },
       { b with status := .done, original := some r.original,
                compressed := some r.compressed,
                compressionRatio := some r.compressionRatio }] := by
    simp [handleCompress, markCompressing, eligibleOf, runBatch_cons, runBatch_nil,
      replaceById, compressImage, hoa, hob, ha, hb, hab, Ne.symm hab]
  refine ⟨hlist, ?_, ?_⟩ <;> rw [hlist] <;> simp [completedCount]

/-- A pending 1000-byte upload with id `a`. -/
def recA : ImageFile :=
  { id := "a", preview := "blob:a", status := .pending, originalSize := 1000,
    estimatedSize := some 450, original := none, compressed := none,
    compressionRatio := none, error := none }

/-- A pending 2000-byte upload with id `b`. -/
def recB : ImageFile :=
  { id := "b", preview := "blob:b", status := .pending, originalSize := 2000,
    estimatedSize := some 900, original := none, compressed := none,
    compressionRatio := none, error := none }

/-- A successful endpoint response for `recB`. -/
def okResult : CompressResult :=
  serverRespond "b.png" 2000 20 20 "png" "original" 700 16 16 "BB"

/-- A network that fails for id `a` and succeeds for everything else. -/
def demoOracle : ImageFile → Except String CompressResult :=
  fun img => if img.id = "a" then .error "network down" else .ok okResult

/-- C4 witness: the concrete two-record batch, first record failing. -/
theorem batch_isolates_failure_witness :
    recA.id ≠ recB.id ∧ recA.status = .pending ∧ recB.status = .pending ∧
    (handleCompress demoOracle [recA, recB]).1 =
      [{ recA with status := .error, error := some "network down" },
       { recB with status := .done, original := some okResult.original,
                   compressed := some okResult.compressed,
                   compressionRatio := some okResult.compressionRatio }] ∧
    completedCount (handleCompress demoOracle [recA, recB]).1 = 1 := by
  have h := batch_isolates_failure demoOracle recA recB "network down" okResult
    (by decide) rfl rfl rfl rfl
  exact ⟨by decide, rfl, rfl, h.1, h.2.1⟩

/-- C5 witness: on the concrete batch the calls are begun in array order. -/
theorem handleCompress_sequential_witness :
    startedIds (handleCompress demoOracle [recA, recB]).2 = ["a", "b"] ∧
    inFlight (handleCompress demoOracle [recA, recB]).2 = 0 := by
  have h := handleCompress_sequential demoOracle [recA, recB]
  refine ⟨h.1.trans ?_, h.2.2.2.2⟩
  rfl

/-- C8: on a successful compression the record reaches `done`, records the
measured compressed size, and its ratio is exactly
`(1 - compressedBytes / sourceBytes) * 100` rounded to two decimal places by
the endpoint and copied unchanged by the client. -/
theorem record_ratio_formula (oracle : ImageFile → Except String CompressResult)
    (img : ImageFile) (name : String) (s ow oh : Nat) (ofmt rfmt : String)
    (c cw ch : Nat) (b64 : String) (hs : 0 < s)
    (ho : oracle img = .ok (serverRespond name s ow oh ofmt rfmt c cw ch b64)) :
    (compressImage oracle img).status = .done ∧
    (compressImage oracle img).compressed.map (fun ci => ci.size) = some c ∧
    (compressImage oracle img).compressionRatio
      = some (roundTo2 ((1 - (c : ℚ) / (s : ℚ)) * 100)) := by
  simp [compressImage, ho, serverRespond, serverRatio]

/-- An endpoint response compressing 1000000 bytes down to 300000. -/
def wResult : CompressResult :=
  serverRespond "w.png" 1000000 100 100 "png" "webp" 300000 80 80 "CC"

/-- A network that always answers with `wResult`. -/
def wOracle : ImageFile → Except String CompressResult := fun _ => .ok wResult

/-- C8 witness: compressing 1000000 bytes to 300000 surfaces ratio 70. -/
theorem record_ratio_formula_witness :
    0 < 1000000 ∧
    (compressImage wOracle recA).compressionRatio
      = some (roundTo2 ((1 - (300000 : ℚ) / (1000000 : ℚ)) * 100)) ∧
    roundTo2 ((1 - (300000 : ℚ) / (1000000 : ℚ)) * 100) = 70 := by
  have h := record_ratio_formula wOracle recA "w.png" 1000000 100 100 "png" "webp"
    300000 80 80 "CC" (by norm_num) rfl
  refine ⟨by norm_num, h.2.2, ?_⟩
  norm_num [roundTo2, jsRound]

/-- C9 counterexample: a GIF upload (accepted by the upload surface) with
target token `original` is encoded as JPEG, not as its detected source
encoding `gif`. -/
theorem resolveFormat_original_gif :
    resolveFormat "original" "gif" = "jpeg" ∧ ("jpeg" : String) ≠ "gif" ∧
    (serverRespond "g.gif" 10 1 1 "gif" "original" 5 1 1 "AA").compressed.format
      = "jpeg" :=
  ⟨rfl, by decide, rfl⟩

/-- C9 amended: explicit tokens `jpeg`/`jpg` (normalized to `jpeg`), `png`,
`webp`, `avif` yield the requested encoding; token `original` yields the
detected source encoding only when that encoding is itself one of
`jpeg`/`jpg`/`png`/`webp`/`avif` (with `jpg` normalized to `jpeg`) and
falls back to JPEG otherwise (e.g. detected `gif` or `unknown`); every other
token falls back to JPEG. -/
theorem resolveFormat_policy (t o : String) :
    resolveFormat "jpeg" o = "jpeg" ∧ resolveFormat "jpg" o = "jpeg" ∧
    resolveFormat "png" o = "png" ∧ resolveFormat "webp" o = "webp" ∧
    resolveFormat "avif" o = "avif" ∧
    ((o = "jpeg" ∨ o = "jpg") → resolveFormat "original" o = "jpeg") ∧
    ((o = "png" ∨ o = "webp" ∨ o = "avif") → resolveFormat "original" o = o) ∧
    (o ≠ "jpeg" → o ≠ "jpg" → o ≠ "png" → o ≠ "webp" → o ≠ "avif" →
      resolveFormat "original" o = "jpeg") ∧
    (t ≠ "original" → t ≠ "jpeg" → t ≠ "jpg" → t ≠ "png" → t ≠ "webp" →
      t ≠ "avif" → resolveFormat t o = "jpeg") := by
  refine ⟨rfl, rfl, rfl, rfl, rfl, ?_, ?_, ?_, ?_⟩
  · rintro (h | h) <;> subst h <;> rfl
  · rintro (h | h | h) <;> subst h <;> rfl
  · intro h1 h2 h3 h4 h5
    simp [resolveFormat, h1, h2, h3, h4, h5]
  · intro h1 h2 h3 h4 h5 h6
    simp [resolveFormat, h1, h2, h3, h4, h5, h6]

/-- C9 amended witness: an unsupported explicit token falls back to JPEG. -/
theorem resolveFormat_policy_witness : resolveFormat "gif" "gif" = "jpeg" :=
  (resolveFormat_policy "gif" "gif").2.2.2.2.2.2.2.2 (by decide) (by decide)
    (by decide) (by decide) (by decide) (by decide)
